import Mathlib

/-!
Verification of the KodiDevKit static-analysis core (`libs/utils.py`,
`libs/InfoProvider.py`) against its natural-language specification.

The Python code is shallowly embedded: XML element trees become the
inductive `XmlNode`, registry/catalog entries become plain structures,
filesystem access becomes explicit function parameters, and code that can
raise a Python exception is modelled with `Except`.  Unbounded recursion
through registry/file contents (which the Python code performs directly)
is modelled with an explicit fuel parameter.
-/

/-- An XML element as produced by the markup accessor (lxml): a tag name,
an attribute mapping, optional text content, ordered children and a source
line number. -/
inductive XmlNode where
  | mk (tag : String) (attrib : List (String × String)) (text : Option String)
       (children : List XmlNode) (sourceline : Nat)

def XmlNode.tag : XmlNode → String
  | .mk t _ _ _ _ => t

def XmlNode.attrib : XmlNode → List (String × String)
  | .mk _ a _ _ _ => a

def XmlNode.text : XmlNode → Option String
  | .mk _ _ x _ _ => x

def XmlNode.children : XmlNode → List XmlNode
  | .mk _ _ _ c _ => c

def XmlNode.sourceline : XmlNode → Nat
  | .mk _ _ _ _ l => l

/-- `node.attrib[key]` lookup (`key in node.attrib` is `isSome`). -/
def lookupAttr (n : XmlNode) (key : String) : Option String :=
  (n.attrib.find? (fun p => p.1 == key)).map (·.2)

/-- Python's truthiness test `if not node.text` collapses `None` and `""`;
we read an absent text as the empty string. -/
def textOf (n : XmlNode) : String :=
  n.text.getD ""

/-! ## utils.check_brackets (utils.py lines 223-240) -/

/-- `push_chars = "<({["` -/
def push_chars : List Char := ['<', '(', '{', '[']

/-- `pop_chars = ">)}]"` -/
def pop_chars : List Char := ['>', ')', '}', ']']

/-- `push_chars[pop_chars.index(c)]` for `c ∈ pop_chars`. -/
def balancing_bracket (c : Char) : Char :=
  if c = '>' then '<'
  else if c = ')' then '('
  else if c = '}' then '{'
  else '['

/-- The loop of `check_brackets`: the Python list used as a stack (append /
pop at the end) is modelled with the list head as the stack top. -/
def checkBracketsGo : List Char → List Char → Bool
  | stack, [] => stack.isEmpty
  | stack, c :: rest =>
    if push_chars.contains c then
      checkBracketsGo (c :: stack) rest
    else if pop_chars.contains c then
      match stack with
      | [] => false
      | stack_top :: stack' =>
        if stack_top ≠ balancing_bracket c then false
        else checkBracketsGo stack' rest
    else
      checkBracketsGo stack rest

/-- `utils.check_brackets(label)`: stack algorithm over the four bracket
families; returns `not stack` at the end. -/
def check_brackets (label : String) : Bool :=
  checkBracketsGo [] label.data

/-! ## The bracket pass of InfoProvider.check_file (lines 615-640) -/

/-- `bracket_tags = ["visible", "enable", "usealttexture", "selected"]`
(check_file line 561). -/
def bracket_tags : List String := ["visible", "enable", "usealttexture", "selected"]

/-- `condition = str(...).replace("  ", "").replace("\t", "")`. -/
def cleanCondition (s : String) : String :=
  (s.replace "  " "").replace "\t" ""

/-- Lines 617-630 of check_file, for one node selected by the xpath over
`bracket_tags`: empty/absent text gives the distinct "Empty condition"
message, otherwise a failing `check_brackets` gives "Brackets do not
match", otherwise no diagnostic. -/
def bracketPassNode (tag : String) (text : Option String) : Option String :=
  match text with
  | none => some ("Empty condition: " ++ tag)
  | some s =>
    if s = "" then some ("Empty condition: " ++ tag)
    else if check_brackets s then none
    else some ("Brackets do not match: " ++ cleanCondition s)

/-- Lines 632-640 of check_file, for one node carrying a `condition`
attribute: only the bracket check runs. -/
def bracketPassCondition (cond : String) : Option String :=
  if check_brackets cond then none
  else some ("Brackets do not match: " ++ cleanCondition cond)

/-- C9: a character is one of the eight bracket characters. -/
def isBracketChar (c : Char) : Bool :=
  push_chars.contains c || pop_chars.contains c

/-- Keeping only the bracket characters of a string. -/
def filterBrackets (s : String) : String :=
  String.mk (s.data.filter isBracketChar)

theorem checkBracketsGo_filter (l : List Char) :
    ∀ stack, checkBracketsGo stack (l.filter isBracketChar) = checkBracketsGo stack l := by
  induction l with
  | nil => intro stack; rfl
  | cons c rest ih =>
    intro stack
    cases hpush : push_chars.contains c with
    | true =>
      have hb : isBracketChar c = true := by unfold isBracketChar; rw [hpush, Bool.true_or]
      simp only [List.filter_cons, hb, if_pos]
      simp only [checkBracketsGo, hpush, if_pos]
      exact ih _
    | false =>
      cases hpop : pop_chars.contains c with
      | true =>
        have hb : isBracketChar c = true := by unfold isBracketChar; rw [hpop, Bool.or_true]
        simp only [List.filter_cons, hb, if_pos]
        simp only [checkBracketsGo, hpush, hpop, Bool.false_eq_true, if_false, if_pos]
        cases stack with
        | nil => rfl
        | cons top stack' =>
          by_cases htop : top ≠ balancing_bracket c
          · simp [htop]
          · simp only [htop, if_neg, not_false_iff, if_false]
            exact ih _
      | false =>
        have hb : isBracketChar c = false := by unfold isBracketChar; rw [hpush, hpop]; rfl
        simp only [List.filter_cons, hb, Bool.false_eq_true, if_false]
        simp only [checkBracketsGo, hpush, hpop, Bool.false_eq_true, if_false]
        exact ih _

/-- **C9.** The verdict of `check_brackets` depends only on the subsequence
of bracket characters of its input: every non-bracket character falls into
the final `else` branch of the loop, which leaves the stack unchanged, so
deleting (or inserting) such characters never changes the result. -/
theorem check_brackets_filter_invariant (s : String) :
    check_brackets s = check_brackets (filterBrackets s) := by
  unfold check_brackets filterBrackets
  exact (checkBracketsGo_filter s.data []).symm

/-- **C1.** The bracket pass of `check_file`: for every node whose tag is in
the bracket-check set, empty/absent text yields the distinct "Empty
condition" diagnostic; non-empty text yields "Brackets do not match"
exactly when `check_brackets` returns false; a `condition` attribute yields
"Brackets do not match" exactly when `check_brackets` returns false; and
the stack algorithm passes `"[A][B]"` and `"[[]]"` and fails `"[A(B]"` and
`"]["`. -/
theorem check_file_bracket_pass_spec :
    (∀ tag, tag ∈ bracket_tags →
      bracketPassNode tag none = some ("Empty condition: " ++ tag) ∧
      bracketPassNode tag (some "") = some ("Empty condition: " ++ tag)) ∧
    (∀ tag s, tag ∈ bracket_tags → s ≠ "" →
      (bracketPassNode tag (some s) =
          some ("Brackets do not match: " ++ cleanCondition s) ↔
        check_brackets s = false)) ∧
    (∀ cond,
      (bracketPassCondition cond =
          some ("Brackets do not match: " ++ cleanCondition cond) ↔
        check_brackets cond = false)) ∧
    check_brackets "[A][B]" = true ∧
    check_brackets "[[]]" = true ∧
    check_brackets "[A(B]" = false ∧
    check_brackets "][" = false := by
  refine ⟨?_, ?_, ?_, by decide, by decide, by decide, by decide⟩
  · intro tag _
    exact ⟨rfl, by simp [bracketPassNode]⟩
  · intro tag s _ hs
    constructor
    · intro h
      by_contra hcb
      have hcb' : check_brackets s = true := by
        cases hcbv : check_brackets s
        · exact absurd hcbv hcb
        · rfl
      simp [bracketPassNode, hs, hcb'] at h
    · intro h
      simp [bracketPassNode, hs, h]
  · intro cond
    constructor
    · intro h
      by_contra hcb
      have hcb' : check_brackets cond = true := by
        cases hcbv : check_brackets cond
        · exact absurd hcbv hcb
        · rfl
      simp [bracketPassCondition, hcb'] at h
    · intro h
      simp [bracketPassCondition, h]

/-- Witness for C1 at concrete inputs. -/
theorem check_file_bracket_pass_spec_witness :
    bracketPassNode "visible" (some "[A(B]") =
      some ("Brackets do not match: " ++ cleanCondition "[A(B]") ∧
    bracketPassNode "visible" (some "") = some ("Empty condition: " ++ "visible") ∧
    bracketPassCondition "][" =
      some ("Brackets do not match: " ++ cleanCondition "][") := by
  refine ⟨?_, ?_, ?_⟩
  · exact (check_file_bracket_pass_spec.2.1 "visible" "[A(B]" (by decide)
      (by decide)).mpr (by decide)
  · exact (check_file_bracket_pass_spec.1 "visible" (by decide)).2
  · exact (check_file_bracket_pass_spec.2.2.1 "][").mpr (by decide)

/-! ## Registry entries and the cross-reference passes (C3) -/

/-- A registry entry collected by the registry builder from an includes
file: an `include`/`variable`/`constant` node with its name, tag kind,
defining file, line and (parsed) content.  The raw serialized content
stored by the Python code is modelled by its parsed tree. -/
structure IncludeEntry where
  name : String
  type : String
  file : String
  line : Nat
  content : XmlNode

/-- A diagnostic of a cross-reference pass, keeping only the shape that
distinguishes the two message families. -/
inductive RefDiag where
  | undefined (name : String)
  | unused (name : String)
deriving DecidableEq

/-- `InfoProvider.check_variables`, lines 249-260, for one folder: the
extracted `$VAR[...]` reference names are checked against the folder's
registry (entries of type `variable`); registry entries of type `variable`
whose name is never referenced are flagged unused. -/
def check_variables_folder (var_refs : List String) (include_list : List IncludeEntry) :
    List RefDiag :=
  (var_refs.filterMap fun ref =>
    if include_list.any (fun node => node.type == "variable" && node.name == ref) then none
    else some (RefDiag.undefined ref)) ++
  (include_list.filterMap fun node =>
    if node.type == "variable" && !(var_refs.contains node.name) then
      some (RefDiag.unused node.name)
    else none)

/-- `InfoProvider.check_includes`, lines 291-303, for one folder, given the
already-extracted include reference names. -/
def check_includes_folder (include_refs : List String) (include_list : List IncludeEntry) :
    List RefDiag :=
  (include_refs.filterMap fun ref =>
    if include_list.any (fun node => node.type == "include" && node.name == ref) then none
    else some (RefDiag.undefined ref)) ++
  (include_list.filterMap fun node =>
    if node.type == "include" && !(include_refs.contains node.name) then
      some (RefDiag.unused node.name)
    else none)

theorem undefined_mem_refs {refs : List String} {incl : List IncludeEntry} {N : String}
    {kind : String}
    (h : RefDiag.undefined N ∈
      (refs.filterMap fun ref =>
        if incl.any (fun node => node.type == kind && node.name == ref) then none
        else some (RefDiag.undefined ref)) ++
      (incl.filterMap fun node =>
        if node.type == kind && !(refs.contains node.name) then
          some (RefDiag.unused node.name)
        else none)) :
    N ∈ refs := by
  rcases List.mem_append.mp h with h | h
  · rcases List.mem_filterMap.mp h with ⟨ref, href, heq⟩
    split_ifs at heq
    have : ref = N := RefDiag.undefined.inj (Option.some.inj heq)
    rwa [this] at href
  · rcases List.mem_filterMap.mp h with ⟨node, _, heq⟩
    split_ifs at heq
    exact absurd (Option.some.inj heq) (by simp)

theorem unused_not_mem_refs {refs : List String} {incl : List IncludeEntry} {N : String}
    {kind : String}
    (h : RefDiag.unused N ∈
      (refs.filterMap fun ref =>
        if incl.any (fun node => node.type == kind && node.name == ref) then none
        else some (RefDiag.undefined ref)) ++
      (incl.filterMap fun node =>
        if node.type == kind && !(refs.contains node.name) then
          some (RefDiag.unused node.name)
        else none)) :
    ¬ N ∈ refs := by
  intro hmem
  rcases List.mem_append.mp h with h | h
  · rcases List.mem_filterMap.mp h with ⟨ref, _, heq⟩
    split_ifs at heq
    exact absurd (Option.some.inj heq) (by simp)
  · rcases List.mem_filterMap.mp h with ⟨node, _, heq⟩
    split_ifs at heq with hcond
    have hname : node.name = N := RefDiag.unused.inj (Option.some.inj heq)
    rw [Bool.and_eq_true] at hcond
    have hnc : refs.contains node.name = false := by
      have h2 := hcond.2
      cases hv : refs.contains node.name
      · rfl
      · rw [hv] at h2
        exact absurd h2 (by simp)
    rw [hname] at hnc
    have h3 : refs.contains N = true := List.elem_iff.mpr hmem
    rw [hnc] at h3
    exact Bool.false_ne_true h3

/-- **C3.** In one run of a cross-reference pass over one folder
(`check_variables` and likewise `check_includes`), no name `N` receives
both an undefined-reference diagnostic and an unused-definition
diagnostic: an undefined diagnostic for `N` requires `N` to be a
reference, an unused diagnostic requires `N` not to be a reference. -/
theorem cross_reference_undefined_unused_exclusive :
    (∀ (var_refs : List String) (include_list : List IncludeEntry) (N : String),
      (decide (RefDiag.undefined N ∈ check_variables_folder var_refs include_list) &&
       decide (RefDiag.unused N ∈ check_variables_folder var_refs include_list)) = false) ∧
    (∀ (include_refs : List String) (include_list : List IncludeEntry) (N : String),
      (decide (RefDiag.undefined N ∈ check_includes_folder include_refs include_list) &&
       decide (RefDiag.unused N ∈ check_includes_folder include_refs include_list)) = false) := by
  constructor
  · intro refs incl N
    cases h1 : decide (RefDiag.undefined N ∈ check_variables_folder refs incl) with
    | false => rfl
    | true =>
      rw [Bool.true_and]
      apply decide_eq_false
      intro h2
      exact unused_not_mem_refs h2 (undefined_mem_refs (of_decide_eq_true h1))
  · intro refs incl N
    cases h1 : decide (RefDiag.undefined N ∈ check_includes_folder refs incl) with
    | false => rfl
    | true =>
      rw [Bool.true_and]
      apply decide_eq_false
      intro h2
      exact unused_not_mem_refs h2 (undefined_mem_refs (of_decide_eq_true h1))

/-! ## InfoProvider.check_labels: untranslated-label detection (C6) -/

/-- Python's `str.isdigit()`: non-empty and all characters are digits. -/
def pyIsDigit (s : String) : Bool :=
  !s.data.isEmpty && s.data.all Char.isDigit

/-- `re.match(r"[A-Za-z]+", text)` is truthy iff the text starts with an
ASCII letter (`re.match` anchors at the start of the string). -/
def label_regex_match (s : String) : Bool :=
  match s.data with
  | [] => false
  | c :: _ => c.isAlpha

/-- Lines 465-474 of `check_labels`, for one `label`/`altlabel`/`label2`
element: empty/absent text is skipped; otherwise the element is flagged as
untranslated iff the text contains no `$`, is not purely numeric, and
matches the letters pattern. -/
def untranslated_label_flag (text : Option String) : Bool :=
  match text with
  | none => false
  | some s =>
    !s.data.isEmpty && (!(s.data.contains '$') && (!pyIsDigit s && label_regex_match s))

/-- **C6.** `check_labels` flags a `label`/`altlabel`/`label2` element with
non-empty text as untranslated iff the text has no `$` character, is not
purely numeric, and matches the letters pattern; `Hello` is flagged,
`31000` and `$LOCALIZE[31000]` are not. -/
theorem check_labels_untranslated_iff :
    (∀ s : String, s.data ≠ [] →
      (untranslated_label_flag (some s) = true ↔
        (s.data.contains '$' = false ∧ pyIsDigit s = false ∧ label_regex_match s = true))) ∧
    untranslated_label_flag (some "Hello") = true ∧
    untranslated_label_flag (some "31000") = false ∧
    untranslated_label_flag (some "$LOCALIZE[31000]") = false := by
  refine ⟨?_, by decide, by decide, by decide⟩
  intro s hs
  have hne : s.data.isEmpty = false := by
    cases hd : s.data
    · exact absurd hd hs
    · rfl
  constructor
  · intro h
    have h' : (!s.data.isEmpty &&
        (!(s.data.contains '$') && (!pyIsDigit s && label_regex_match s))) = true := h
    rw [hne] at h'
    simp only [Bool.not_false, Bool.true_and, Bool.and_eq_true] at h'
    refine ⟨?_, ?_, h'.2.2⟩
    · have h1 := h'.1
      cases hv : s.data.contains '$'
      · rfl
      · rw [hv] at h1
        exact absurd h1 (by simp)
    · have h2 := h'.2.1
      cases hv : pyIsDigit s
      · rfl
      · rw [hv] at h2
        exact absurd h2 (by simp)
  · intro ⟨h1, h2, h3⟩
    show (!s.data.isEmpty &&
        (!(s.data.contains '$') && (!pyIsDigit s && label_regex_match s))) = true
    rw [hne, h1, h2, h3]
    rfl

/-- Witness for C6 at a concrete input. -/
theorem check_labels_untranslated_iff_witness :
    untranslated_label_flag (some "Hello world") = true :=
  (check_labels_untranslated_iff.1 "Hello world" (by decide)).mpr (by decide)

/-! ## InfoProvider.check_ids: control/item id references (C10) -/

/-- A reference record extracted by `check_ids` (name, node tag, file,
line). -/
structure IdRef where
  name : String
  type : String
  file : String
  line : Nat
deriving DecidableEq

/-- `pat` occurs as a contiguous substring of `l`. -/
def listStartsWith : List Char → List Char → Bool
  | [], _ => true
  | _ :: _, [] => false
  | p :: ps, c :: cs => p == c && listStartsWith ps cs

def containsSub (pat : List Char) : List Char → Bool
  | [] => pat.isEmpty
  | l@(_ :: rest) => listStartsWith pat l || containsSub pat rest

/-- `pre`, then one arbitrary character (the regex `.`), then `post`,
occurring at the head of the list. -/
def dotPatAt (pre post l : List Char) : Bool :=
  listStartsWith pre l &&
    (match l.drop pre.length with
     | [] => false
     | _ :: tail => listStartsWith post tail)

def containsDotPat (pre post : List Char) : List Char → Bool
  | [] => false
  | l@(_ :: rest) => dotPatAt pre post l || containsDotPat pre post rest

/-- The lazy group `([0-9]*?)\)` starting right after a `(`: zero or more
digits, as few as possible, up to the first `)`; any other character makes
this position fail. -/
def parenCaptureAt : List Char → Option (List Char)
  | [] => none
  | c :: rest =>
    if c = ')' then some []
    else if c.isDigit then (parenCaptureAt rest).map (fun ds => c :: ds)
    else none

/-- The greedy `.*` before `\(` backtracks from the end, so the regex
captures at the last `(` that is followed by digits and a `)`. -/
def lastParenCapture : List Char → Option (List Char)
  | [] => none
  | c :: rest =>
    match lastParenCapture rest with
    | some r => some r
    | none => if c = '(' then parenCaptureAt rest else none

/-- `re.finditer(control_regex, text, re.IGNORECASE)` (check_ids line 338):
`control_regex = "^(?!.*IsActive)(?!.*Window.IsVisible)(?!.*Dialog.Close)(?!.*Window).*\(([0-9]*?)\)"`.
Because of the `^` anchor there is at most one match per text; the four
negative lookaheads reject any text containing (case-insensitively)
`IsActive`, `Window<any>IsVisible`, `Dialog<any>Close` or `Window`; the
captured group is the digit string of the last viable parenthesis pair,
possibly empty. -/
def control_regex_capture (s : String) : Option String :=
  let l := s.data.map Char.toLower
  if containsSub "isactive".data l then none
  else if containsDotPat "window".data "isvisible".data l then none
  else if containsDotPat "dialog".data "close".data l then none
  else if containsSub "window".data l then none
  else (lastParenCapture s.data).map (fun ds => String.mk ds)

/-- Lines 409-414 of `check_ids`: a control/item reference is reported only
if its name is non-empty (`not item["name"]`) and not among the defined
ids. -/
def check_ids_control_filter (control_refs : List IdRef) (define_list : List String) :
    List (IdRef × String) :=
  control_refs.filterMap fun item =>
    if item.name.data.isEmpty || define_list.contains item.name then none
    else some (item, "Control / Item ID not defined: " ++ item.name)

/-- **C10.** `check_ids` never emits a "Control / Item ID not defined"
diagnostic for an empty captured id: the control-reference regex can
capture zero digits (e.g. on `Control.HasFocus()`), and the filter lets
every empty-name reference pass silently, even with no definition of an
empty id. -/
theorem check_ids_empty_control_id_accepted :
    control_regex_capture "Control.HasFocus()" = some "" ∧
    (∀ (control_refs : List IdRef) (define_list : List String),
      ((check_ids_control_filter control_refs define_list).all
        (fun d => !d.1.name.data.isEmpty)) = true) ∧
    check_ids_control_filter [⟨"", "visible", "Home.xml", 4⟩] [] = [] := by
  refine ⟨by decide, ?_, by decide⟩
  intro refs defines
  rw [List.all_eq_true]
  intro d hd
  rcases List.mem_filterMap.mp hd with ⟨item, _, heq⟩
  split_ifs at heq with hcond
  have hd1 : d.1 = item := by
    have := Option.some.inj heq
    rw [← this]
  rw [hd1]
  cases hv : item.name.data.isEmpty
  · rfl
  · rw [Bool.or_eq_true] at hcond
    exact absurd (Or.inl hv) hcond

/-! ## Label catalog: update_labels / return_label (C4) -/

/-- A translation-catalog entry as produced by the label-catalog loader
(an id string of the form `#<digits>`, the default string, the native
string and a source line). -/
structure LabelEntry where
  id : String
  string : String
  native_string : String
  line : Nat
deriving DecidableEq

/-- Line 232 of `InfoProvider.update_labels`:
`self.string_list = self.builtin_list + self.addon_string_list` — the
merged catalog is the engine-provided sequence followed by the
project-provided sequence. -/
def update_labels_string_list (builtin_list addon_string_list : List LabelEntry) :
    List LabelEntry :=
  builtin_list ++ addon_string_list

/-- The lookup loop of `InfoProvider.return_label` (lines 185-194): for a
purely numeric selection, scan `string_list` front-to-back for the first
entry whose id equals `"#" + selection` and return it. -/
def return_label_entry (string_list : List LabelEntry) (selection : String) :
    Option LabelEntry :=
  if pyIsDigit selection then
    string_list.find? (fun item => ("#" ++ selection) == item.id)
  else none

/-- `InfoProvider.return_label`: the tooltip string built from the first
matching entry (native string appended when `use_native` is set). -/
def return_label (use_native : Bool) (string_list : List LabelEntry) (selection : String) :
    String :=
  match return_label_entry string_list selection with
  | some item =>
    if use_native then item.string ++ "<br>" ++ item.native_string else item.string
  | none => ""

theorem find?_append_of_some {α : Type} (p : α → Bool) {l1 : List α} (l2 : List α)
    {a : α} (h : l1.find? p = some a) : (l1 ++ l2).find? p = some a := by
  induction l1 with
  | nil => simp [List.find?] at h
  | cons x xs ih =>
    cases hp : p x
    · rw [List.find?_cons_of_neg _ (by simp [hp])] at h
      rw [List.cons_append, List.find?_cons_of_neg _ (by simp [hp])]
      exact ih h
    · rw [List.find?_cons_of_pos _ hp] at h
      rw [List.cons_append, List.find?_cons_of_pos _ hp]
      exact h

theorem return_label_entry_merged {b a : List LabelEntry} {sel : String} {e : LabelEntry}
    (hdig : pyIsDigit sel = true)
    (hfind : b.find? (fun item => ("#" ++ sel) == item.id) = some e) :
    return_label_entry (update_labels_string_list b a) sel = some e := by
  unfold return_label_entry update_labels_string_list
  rw [hdig, if_pos rfl]
  exact find?_append_of_some _ a hfind

/-- **C4.** After `update_labels` the merged catalog is the engine sequence
followed by the project sequence, and lookup by numeric id (front-to-back,
first entry whose id equals `"#" + selection`) returns the engine entry
whenever the engine catalog contains the id — the project entry with that
id is unreachable by lookup. -/
theorem update_labels_engine_shadows_project :
    (∀ builtin_list addon_string_list : List LabelEntry,
      update_labels_string_list builtin_list addon_string_list =
        builtin_list ++ addon_string_list) ∧
    (∀ (builtin_list addon_string_list : List LabelEntry) (selection : String)
        (e : LabelEntry),
      pyIsDigit selection = true →
      builtin_list.find? (fun item => ("#" ++ selection) == item.id) = some e →
      return_label_entry (update_labels_string_list builtin_list addon_string_list)
        selection = some e) ∧
    (∀ (builtin_list addon_string_list : List LabelEntry) (selection : String)
        (e : LabelEntry),
      pyIsDigit selection = true →
      builtin_list.find? (fun item => ("#" ++ selection) == item.id) = some e →
      return_label false (update_labels_string_list builtin_list addon_string_list)
        selection = e.string) := by
  refine ⟨fun _ _ => rfl, ?_, ?_⟩
  · intro b a sel e hdig hfind
    exact return_label_entry_merged hdig hfind
  · intro b a sel e hdig hfind
    unfold return_label
    rw [return_label_entry_merged hdig hfind]
    rfl

/-- Witness for C4: the engine and the project both define id `#100`;
lookup returns the engine entry. -/
theorem update_labels_engine_shadows_project_witness :
    return_label_entry
      (update_labels_string_list
        [⟨"#100", "engine string", "engine native", 3⟩]
        [⟨"#100", "project string", "project native", 7⟩]) "100" =
      some ⟨"#100", "engine string", "engine native", 3⟩ :=
  update_labels_engine_shadows_project.2.1
    [⟨"#100", "engine string", "engine native", 3⟩]
    [⟨"#100", "project string", "project native", 7⟩]
    "100" ⟨"#100", "engine string", "engine native", 3⟩ (by decide) (by decide)

/-! ## Project descriptor resolver: init_addon (C5) -/

/-- `os.path.join` for the fixed path shapes used here. -/
def pjoin (a b : String) : String := a ++ "/" ++ b

/-- `utils.check_paths(paths)` (utils.py lines 193-200): the first path of
the list that exists, else `""`.  `os.path.exists` is the explicit
function parameter. -/
def check_paths (path_exists : String → Bool) : List String → String
  | [] => ""
  | p :: ps => if path_exists p then p else check_paths path_exists ps

/-- The parsed addon descriptor, as read by `init_addon`: the root `id`
attribute, whether `.//import[@addon='xbmc.python']` is present, and the
`folder` attributes of the `.//res` nodes. -/
structure AddonXmlModel where
  id_attr : Option String
  has_python_import : Bool
  res_folders : List String

structure InitAddonResult where
  addon_type : String
  addon_name : String
  xml_folders : List String
deriving DecidableEq

/-- The fixed pair of conventional default-skin paths of `init_addon`
(lines 48-49). -/
def skin_default_paths (project_path : String) : List String :=
  [pjoin (pjoin (pjoin (pjoin project_path "resources") "skins") "Default") "720p",
   pjoin (pjoin (pjoin (pjoin project_path "resources") "skins") "Default") "1080i"]

/-- `InfoProvider.init_addon` (lines 28-57): the addon descriptor path is
probed with `check_paths`; with no descriptor the folder list stays empty
and the method just runs `update_labels` and returns; with a descriptor,
the absence of the `xbmc.python` import makes the addon a skin whose
folders are the `res` folder attributes, and its presence makes it a
python addon whose single folder is the first existing default-skin path.
A descriptor that exists but fails to parse would make `root.xpath` raise
on `None` (modelled as `Except.error`). -/
def init_addon (path_exists : String → Bool) (parse : String → Option AddonXmlModel)
    (project_path : String) : Except String InitAddonResult :=
  let addon_xml_file := check_paths path_exists [pjoin project_path "addon.xml"]
  if addon_xml_file = "" then
    Except.ok ⟨"", "", []⟩
  else
    match parse addon_xml_file with
    | none => Except.error "AttributeError"
    | some root =>
      let addon_name := root.id_attr.getD ""
      if !root.has_python_import then
        Except.ok ⟨"skin", addon_name, root.res_folders⟩
      else
        Except.ok
          ⟨"python", addon_name, [check_paths path_exists (skin_default_paths project_path)]⟩

theorem pjoin_ne_empty (a b : String) : pjoin a b ≠ "" := by
  intro h
  have hd : (pjoin a b).data = [] := by rw [h]
  unfold pjoin at hd
  rw [String.data_append, String.data_append] at hd
  rcases List.append_eq_nil.mp hd with ⟨h1, h2⟩
  rcases List.append_eq_nil.mp h1 with ⟨_, h3⟩
  exact absurd h3 (by simp [String.data])

/-- **C5.** `init_addon`: no descriptor gives the empty folder list without
failing; with a parsed descriptor, no `xbmc.python` import gives kind
`skin` with the descriptor's `res` folders, and a present import gives
kind `python` with the single folder produced by probing the fixed pair of
conventional default-skin paths, first existing path winning. -/
theorem init_addon_kind_and_folders :
    (∀ (path_exists : String → Bool) (parse : String → Option AddonXmlModel)
        (project_path : String),
      path_exists (pjoin project_path "addon.xml") = false →
      init_addon path_exists parse project_path = Except.ok ⟨"", "", []⟩) ∧
    (∀ (path_exists : String → Bool) (parse : String → Option AddonXmlModel)
        (project_path : String) (root : AddonXmlModel),
      path_exists (pjoin project_path "addon.xml") = true →
      parse (pjoin project_path "addon.xml") = some root →
      root.has_python_import = false →
      init_addon path_exists parse project_path =
        Except.ok ⟨"skin", root.id_attr.getD "", root.res_folders⟩) ∧
    (∀ (path_exists : String → Bool) (parse : String → Option AddonXmlModel)
        (project_path : String) (root : AddonXmlModel),
      path_exists (pjoin project_path "addon.xml") = true →
      parse (pjoin project_path "addon.xml") = some root →
      root.has_python_import = true →
      init_addon path_exists parse project_path =
        Except.ok ⟨"python", root.id_attr.getD "",
          [check_paths path_exists (skin_default_paths project_path)]⟩) ∧
    (∀ (path_exists : String → Bool) (project_path : String),
      path_exists (pjoin (pjoin (pjoin (pjoin project_path "resources") "skins")
        "Default") "720p") = true →
      check_paths path_exists (skin_default_paths project_path) =
        pjoin (pjoin (pjoin (pjoin project_path "resources") "skins") "Default") "720p") ∧
    (∀ (path_exists : String → Bool) (project_path : String),
      path_exists (pjoin (pjoin (pjoin (pjoin project_path "resources") "skins")
        "Default") "720p") = false →
      path_exists (pjoin (pjoin (pjoin (pjoin project_path "resources") "skins")
        "Default") "1080i") = true →
      check_paths path_exists (skin_default_paths project_path) =
        pjoin (pjoin (pjoin (pjoin project_path "resources") "skins") "Default") "1080i") := by
  refine ⟨?_, ?_, ?_, ?_, ?_⟩
  · intro pe parse pp hne
    simp [init_addon, check_paths, hne]
  · intro pe parse pp root hex hparse hpy
    simp [init_addon, check_paths, hex, hparse, hpy, pjoin_ne_empty]
  · intro pe parse pp root hex hparse hpy
    simp [init_addon, check_paths, hex, hparse, hpy, pjoin_ne_empty]
  · intro pe pp h1
    simp [skin_default_paths, check_paths, h1]
  · intro pe pp h1 h2
    simp [skin_default_paths, check_paths, h1, h2]

/-- Witness for C5: a project whose descriptor declares the scripting
dependency and whose 1080i default-skin folder exists. -/
theorem init_addon_kind_and_folders_witness :
    init_addon
      (fun p => p == "proj/addon.xml" || p == "proj/resources/skins/Default/1080i")
      (fun _ => some ⟨some "script.test", true, []⟩) "proj" =
      Except.ok ⟨"python", "script.test", ["proj/resources/skins/Default/1080i"]⟩ := by
  have h3 := init_addon_kind_and_folders.2.2.1
    (fun p => p == "proj/addon.xml" || p == "proj/resources/skins/Default/1080i")
    (fun _ => some ⟨some "script.test", true, []⟩) "proj"
    ⟨some "script.test", true, []⟩ (by decide) rfl rfl
  have h5 := init_addon_kind_and_folders.2.2.2.2
    (fun p => p == "proj/addon.xml" || p == "proj/resources/skins/Default/1080i")
    "proj" (by decide) (by decide)
  rw [h3, h5]
  rfl

/-! ## Include inliner: resolve_include / resolve_includes (C7) -/

/-- The per-node action of `resolve_includes` (InfoProvider lines
429-436): an `include` node with non-empty text whose text matches the
first registry entry of that name (the lookup of `resolve_include`, lines
420-424) is replaced by that entry's content with its own include
descendants inlined in turn; every other node stays in place with its
children processed.  The Python recursion runs through registry contents
and does not terminate on cyclic registries, so the embedding spends one
unit of fuel per tree level and per registry jump. -/
def resolve_child (reg : List IncludeEntry) : Nat → XmlNode → XmlNode
  | 0, n => n
  | fuel+1, n =>
    if n.tag == "include" && !(textOf n == "") then
      match reg.find? (fun e => e.name == textOf n) with
      | some e =>
        XmlNode.mk e.content.tag e.content.attrib e.content.text
          (e.content.children.map (fun c => resolve_child reg fuel c)) e.content.sourceline
      | none =>
        XmlNode.mk n.tag n.attrib n.text
          (n.children.map (fun c => resolve_child reg fuel c)) n.sourceline
    else
      XmlNode.mk n.tag n.attrib n.text
        (n.children.map (fun c => resolve_child reg fuel c)) n.sourceline

/-- `InfoProvider.resolve_includes` (lines 429-436): every `include` node
reachable below the root is replaced by its inlined fragment when
resolvable, and left in place unexpanded otherwise (the xpath `.//include`
selects descendants only, so the root itself is never replaced). -/
def resolve_includes (reg : List IncludeEntry) (fuel : Nat) (xml_source : XmlNode) :
    XmlNode :=
  XmlNode.mk xml_source.tag xml_source.attrib xml_source.text
    (xml_source.children.map (fun c => resolve_child reg fuel c)) xml_source.sourceline

/-- `InfoProvider.resolve_include` (lines 417-427): no replacement for a
node with empty/absent text or with no registry entry of that name;
otherwise the first matching entry's content, parsed and recursively
inlined. -/
def resolve_include (reg : List IncludeEntry) : Nat → XmlNode → Option XmlNode
  | 0, _ => none
  | fuel+1, ref =>
    if textOf ref == "" then none
    else
      match reg.find? (fun e => e.name == textOf ref) with
      | none => none
      | some e => some (resolve_includes reg fuel e.content)

/-- **C7.** `resolve_include` returns no replacement exactly for nodes with
empty text or with no registry entry named by the text, and otherwise
returns the matched entry's content with nested includes recursively
inlined; `resolve_includes` replaces every resolvable include node below
the root with its inlined fragment and leaves every unresolvable include
node in place unexpanded (its children still being processed). -/
theorem resolve_include_characterization :
    (∀ (reg : List IncludeEntry) (fuel : Nat) (ref : XmlNode),
      textOf ref = "" → resolve_include reg (fuel + 1) ref = none) ∧
    (∀ (reg : List IncludeEntry) (fuel : Nat) (ref : XmlNode),
      (∀ e ∈ reg, e.name ≠ textOf ref) → resolve_include reg (fuel + 1) ref = none) ∧
    (∀ (reg : List IncludeEntry) (fuel : Nat) (ref : XmlNode) (e : IncludeEntry),
      textOf ref ≠ "" →
      reg.find? (fun en => en.name == textOf ref) = some e →
      resolve_include reg (fuel + 1) ref = some (resolve_includes reg fuel e.content)) ∧
    (∀ (reg : List IncludeEntry) (fuel : Nat) (t : XmlNode),
      resolve_includes reg fuel t =
        XmlNode.mk t.tag t.attrib t.text
          (t.children.map (fun c => resolve_child reg fuel c)) t.sourceline) ∧
    (∀ (reg : List IncludeEntry) (fuel : Nat) (c frag : XmlNode),
      c.tag = "include" →
      resolve_include reg (fuel + 1) c = some frag →
      resolve_child reg (fuel + 1) c = frag) ∧
    (∀ (reg : List IncludeEntry) (fuel : Nat) (c : XmlNode),
      c.tag = "include" → textOf c ≠ "" →
      resolve_include reg (fuel + 1) c = none →
      resolve_child reg (fuel + 1) c =
        XmlNode.mk c.tag c.attrib c.text
          (c.children.map (fun cc => resolve_child reg fuel cc)) c.sourceline) := by
  refine ⟨?_, ?_, ?_, fun _ _ _ => rfl, ?_, ?_⟩
  · intro reg fuel ref h
    simp [resolve_include, h]
  · intro reg fuel ref h
    have hfind : reg.find? (fun e => e.name == textOf ref) = none := by
      rw [List.find?_eq_none]
      intro e he
      simp only [beq_iff_eq]
      exact h e he
    cases hte : (textOf ref == "") <;> simp [resolve_include, hte, hfind]
  · intro reg fuel ref e hte hfind
    have hte' : (textOf ref == "") = false := beq_eq_false_iff_ne.mpr hte
    simp [resolve_include, hte', hfind]
  · intro reg fuel c frag htag hres
    simp only [resolve_include] at hres
    by_cases hte : (textOf c == "") = true
    · rw [if_pos hte] at hres
      exact absurd hres (by simp)
    · rw [if_neg hte] at hres
      cases hfind : reg.find? (fun e => e.name == textOf c) with
      | none =>
        rw [hfind] at hres
        exact absurd hres (by simp)
      | some e =>
        rw [hfind] at hres
        have hfrag : frag = resolve_includes reg fuel e.content :=
          (Option.some.inj hres).symm
        have hcond : (c.tag == "include" && !(textOf c == "")) = true := by
          rw [htag]
          rw [Bool.not_eq_true] at hte
          rw [hte]
          rfl
        simp only [resolve_child]
        rw [if_pos hcond, hfind, hfrag]
        rfl
  · intro reg fuel c htag hte hres
    simp only [resolve_include] at hres
    have hte' : (textOf c == "") = false := beq_eq_false_iff_ne.mpr hte
    rw [hte'] at hres
    simp only [Bool.false_eq_true, if_false] at hres
    cases hfind : reg.find? (fun e => e.name == textOf c) with
    | none =>
      have hcond : (c.tag == "include" && !(textOf c == "")) = true := by
        rw [htag, hte']
        rfl
      simp only [resolve_child]
      rw [if_pos hcond, hfind]
    | some e =>
      rw [hfind] at hres
      exact absurd hres (by simp)

/-- Witness for C7: a one-entry registry; the include node named `Foo`
resolves to the entry's content, the node named `Bar` resolves to
nothing. -/
theorem resolve_include_characterization_witness :
    resolve_include [⟨"Foo", "include", "Includes.xml", 3, XmlNode.mk "control" [] none [] 4⟩]
      1 (XmlNode.mk "include" [] (some "Foo") [] 10) =
      some (XmlNode.mk "control" [] none [] 4) ∧
    resolve_include [⟨"Foo", "include", "Includes.xml", 3, XmlNode.mk "control" [] none [] 4⟩]
      1 (XmlNode.mk "include" [] (some "Bar") [] 11) = none := by
  constructor
  · have h := resolve_include_characterization.2.2.1
      [⟨"Foo", "include", "Includes.xml", 3, XmlNode.mk "control" [] none [] 4⟩] 0
      (XmlNode.mk "include" [] (some "Foo") [] 10)
      ⟨"Foo", "include", "Includes.xml", 3, XmlNode.mk "control" [] none [] 4⟩
      (by decide) rfl
    exact h.trans rfl
  · exact resolve_include_characterization.2.1
      [⟨"Foo", "include", "Includes.xml", 3, XmlNode.mk "control" [] none [] 4⟩] 0
      (XmlNode.mk "include" [] (some "Bar") [] 11)
      (by
        intro e he
        rw [List.mem_singleton] at he
        subst he
        decide)

/-! ## Parse-failure handling across the check passes (C2) -/

mutual

/-- All descendants of a node in document order (the xpath `.//*`). -/
def xml_descendants : XmlNode → List XmlNode
  | .mk _ _ _ children _ => xml_descendants_list children

/-- Descendants of a forest, document order. -/
def xml_descendants_list : List XmlNode → List XmlNode
  | [] => []
  | c :: cs => c :: (xml_descendants c ++ xml_descendants_list cs)

end

/-- One step of the per-file loop of `InfoProvider.check_ids` (lines
354-366): the parse result is dereferenced immediately (`"id" in
root.attrib`) with no `None` guard, so a file that failed to parse raises
`AttributeError`; otherwise the root's `id` attribute joins `window_ids`
and every descendant carrying an `id` attribute joins `defines`. -/
def check_ids_scan_step (acc : Except String (List String × List String))
    (root? : Option XmlNode) : Except String (List String × List String) :=
  match acc with
  | .error e => .error e
  | .ok (window_ids, defines) =>
    match root? with
    | none => .error "AttributeError"
    | some root =>
      .ok (window_ids ++ (match lookupAttr root "id" with
                          | some v => [v]
                          | none => []),
           defines ++ (xml_descendants root).filterMap (fun n => lookupAttr n "id"))

/-- The file loop of `check_ids` over one folder's window files (each given
as its parse result). -/
def check_ids_scan (files : List (Option XmlNode)) :
    Except String (List String × List String) :=
  files.foldl check_ids_scan_step (.ok ([], []))

/-- The guard and the bracket sections of `InfoProvider.check_file` (lines
582-640): a file whose parse failed returns no diagnostics (`if root is
None: return []`); otherwise the bracket-tag and `condition`-attribute
diagnostics are collected.  The remaining rule-table sections of
check_file run after the same guard and are not needed for this claim. -/
def check_file_brackets (root? : Option XmlNode) : List String :=
  match root? with
  | none => []
  | some root =>
    ((xml_descendants root).filter (fun n => bracket_tags.contains n.tag)).filterMap
      (fun n => bracketPassNode n.tag n.text) ++
    (xml_descendants root).filterMap
      (fun n => (lookupAttr n "condition").bind (fun c => bracketPassCondition c))

/-- `InfoProvider.check_values` (lines 502-509): check_file over every
window file, diagnostics concatenated. -/
def check_values_model (files : List (Option XmlNode)) : List String :=
  files.flatMap check_file_brackets

def isOkB {ε α : Type} : Except ε α → Bool
  | .ok _ => true
  | .error _ => false

theorem check_ids_scan_step_error (files : List (Option XmlNode)) (e : String) :
    files.foldl check_ids_scan_step (.error e) = .error e := by
  induction files with
  | nil => rfl
  | cons f fs ih => exact ih

theorem check_ids_scan_go_ok (files : List (Option XmlNode)) :
    ∀ st : List String × List String,
      isOkB (files.foldl check_ids_scan_step (.ok st)) =
        !(files.any (fun f => f.isNone)) := by
  induction files with
  | nil => intro st; rfl
  | cons f fs ih =>
    intro st
    cases f with
    | none =>
      show isOkB (fs.foldl check_ids_scan_step (.error "AttributeError")) = _
      rw [check_ids_scan_step_error]
      rfl
    | some root =>
      show isOkB (fs.foldl check_ids_scan_step (.ok _)) = _
      rw [ih]
      simp [List.any_cons, Option.isNone]

/-- A window file whose only content is a `visible` condition node with no
text. -/
def sample_window_a : XmlNode :=
  XmlNode.mk "window" [("id", "99")] none [XmlNode.mk "visible" [] none [] 2] 1

/-- A second window file with an empty `enable` condition node. -/
def sample_window_b : XmlNode :=
  XmlNode.mk "window" [] none [XmlNode.mk "enable" [] none [] 3] 1

/-- **C2.** The claim that every check pass skips a file whose markup fails
to parse is violated by `check_ids`: its scan succeeds exactly when no
file failed to parse, and on a concrete list with one failed parse it
aborts with `AttributeError` and loses the diagnostics of the remaining
files, while `check_values`/`check_file` (which do guard the `None` root)
skip the failed file and keep checking the rest. -/
theorem check_ids_parse_failure_aborts_pass :
    (∀ files : List (Option XmlNode),
      isOkB (check_ids_scan files) = !(files.any (fun f => f.isNone))) ∧
    check_ids_scan [some sample_window_a, none, some sample_window_b] =
      .error "AttributeError" ∧
    (∀ (pre post : List (Option XmlNode)),
      check_values_model (pre ++ none :: post) =
        check_values_model pre ++ check_values_model post) ∧
    check_values_model [some sample_window_a, none, some sample_window_b] =
      ["Empty condition: visible", "Empty condition: enable"] := by
  refine ⟨?_, rfl, ?_, rfl⟩
  · intro files
    exact check_ids_scan_go_ok files ([], [])
  · intro pre post
    unfold check_values_model
    rw [List.flatMap_append, List.flatMap_cons]
    rfl

/-! ## Recursive registry build: update_includes (C8) -/

/-- The environment of `InfoProvider.update_includes`: `path_exists` is
`os.path.exists`, `root` is the parse result of an existing include file,
`join` resolves a node's `file` attribute against the current file's
folder (`os.path.join(self.project_path, folder, ...)`), and `tags` is the
per-file registry contribution.  `tags` is modelled from the spec:
`get_tags_from_file` is not among this repository's sources, and the spec
says the builder appends every `include`/`variable`/`constant` node of the
file to the folder's registry. -/
structure IncludeFS where
  path_exists : String → Bool
  root : String → XmlNode
  tags : String → List IncludeEntry
  join : String → String → String

/-- The files recursively referenced from one include file (lines
132-135): direct `include` children carrying a `file` attribute other
than the skin-shortcuts sentinel filename, joined against the current
folder. -/
def include_child_files (fs : IncludeFS) (xml_file : String) : List String :=
  ((fs.root xml_file).children.filter (fun n => n.tag == "include")).filterMap
    (fun n =>
      match lookupAttr n "file" with
      | some f =>
        if f ≠ "script-skinshortcuts-includes.xml" then some (fs.join xml_file f)
        else none
      | none => none)

/-- `InfoProvider.update_includes` (lines 124-137): a missing file is only
logged; an existing file is appended to the file list, its tags join the
registry, and every referenced file is resolved recursively.  The Python
code keeps no visited-set and recurses directly, so the embedding spends
fuel on each recursive call and returns `none` when the fuel runs out —
the claim is that on an acyclic reference graph bounded fuel suffices. -/
def update_includes (fs : IncludeFS) :
    Nat → String → List String × List IncludeEntry →
      Option (List String × List IncludeEntry)
  | 0, _, _ => none
  | fuel+1, xml_file, st =>
    if fs.path_exists xml_file then
      (include_child_files fs xml_file).foldl
        (fun acc c =>
          match acc with
          | none => none
          | some st' => update_includes fs fuel c st')
        (some (st.1 ++ [xml_file], st.2 ++ fs.tags xml_file))
    else
      some st

theorem update_includes_foldl_isSome (g : String → List String × List IncludeEntry →
      Option (List String × List IncludeEntry)) :
    ∀ (l : List String) (st : List String × List IncludeEntry),
      (∀ c ∈ l, ∀ st', (g c st').isSome = true) →
      ((l.foldl
        (fun acc c =>
          match acc with
          | none => none
          | some st' => g c st')
        (some st)).isSome) = true := by
  intro l
  induction l with
  | nil => intro st _; rfl
  | cons c cs ih =>
    intro st h
    rw [List.foldl_cons]
    have h1 : (g c st).isSome = true := h c (List.mem_cons_self _ _) st
    cases hg : g c st with
    | none =>
      rw [hg] at h1
      exact absurd h1 (by simp)
    | some st2 =>
      show ((cs.foldl _ (g c st)).isSome) = true
      rw [hg]
      exact ih st2 (fun c' hc' st' => h c' (List.mem_cons_of_mem _ hc') st')

/-- **C8.** On an acyclic include-file reference graph (witnessed by a rank
function that strictly decreases along every edge of
`include_child_files`), the visited-set-free recursion of
`update_includes` terminates, with recursion depth bounded by the rank of
the starting file: fuel `rank f + 1` (or any larger amount) is enough. -/
theorem update_includes_terminates_on_acyclic :
    ∀ (fs : IncludeFS) (rank : String → Nat),
      (∀ f c, c ∈ include_child_files fs f → rank c < rank f) →
      ∀ (fuel : Nat) (f : String) (st : List String × List IncludeEntry),
        rank f < fuel → (update_includes fs fuel f st).isSome = true := by
  intro fs rank hacyc fuel
  induction fuel with
  | zero =>
    intro f st h
    exact absurd h (Nat.not_lt_zero _)
  | succ n ih =>
    intro f st hlt
    simp only [update_includes]
    by_cases hex : fs.path_exists f = true
    · rw [if_pos hex]
      apply update_includes_foldl_isSome
      intro c hc st'
      exact ih c st' (lt_of_lt_of_le (hacyc f c hc) (Nat.lt_succ_iff.mp hlt))
    · rw [if_neg hex]
      rfl

/-- A two-file acyclic include chain for the C8 witness:
`720p/Includes.xml` references `720p/Includes_Home.xml`, which references
nothing. -/
def witness_fs : IncludeFS where
  path_exists := fun f => f == "720p/Includes.xml" || f == "720p/Includes_Home.xml"
  root := fun f =>
    if f == "720p/Includes.xml" then
      XmlNode.mk "includes" []
        none [XmlNode.mk "include" [("file", "Includes_Home.xml")] none [] 2] 1
    else
      XmlNode.mk "includes" [] none [] 1
  tags := fun _ => []
  join := fun _ f => "720p/" ++ f

def witness_rank (f : String) : Nat :=
  if f == "720p/Includes.xml" then 1 else 0

/-- Witness for C8: the two-file acyclic chain terminates with fuel 2. -/
theorem update_includes_terminates_on_acyclic_witness :
    (update_includes witness_fs 2 "720p/Includes.xml" ([], [])).isSome = true := by
  apply update_includes_terminates_on_acyclic witness_fs witness_rank
  · intro f c hc
    by_cases hf : (f == "720p/Includes.xml") = true
    · have hf' : f = "720p/Includes.xml" := eq_of_beq hf
      subst hf'
      have hlist : include_child_files witness_fs "720p/Includes.xml" =
          ["720p/Includes_Home.xml"] := rfl
      rw [hlist] at hc
      rw [List.mem_singleton] at hc
      subst hc
      decide
    · have hne : f ≠ "720p/Includes.xml" := by
        intro h
        subst h
        simp at hf
      have hlist : include_child_files witness_fs f = [] := by
        simp [include_child_files, witness_fs, hne, XmlNode.children]
      rw [hlist] at hc
      exact absurd hc (List.not_mem_nil c)
  · decide
